import Mathlib

/-!
Shallow embedding of the trezor-link framing/chunking codec.

Write side is `src/lowlevel/send.js` (`BuiltMessage._encodeLong`,
`BuiltMessage.encode`, `sendBuffers`, `cleanupInput`, `buildBuffers`,
`buildOne`, `buildAndSend`).  Read side is the unnamed protocol file
(`readHeader`, `readHeaderChunked`, `decode`, `decodeChunked`).

Byte sequences are modelled as `List Nat` (each entry a byte value).
The dcodeIO ByteBuffer library used by the source is modelled explicitly:
big-endian writes/reads, a read cursor (`offset`) that advances, bounds
asserts that throw a range error, and `toBuffer()` returning the contents
between `offset` and `limit`.
-/

namespace TrezorLink

/-- `HEADER_SIZE = 1 + 1 + 4 + 2` from send.js. -/
def HEADER_SIZE : Nat := 1 + 1 + 4 + 2

/-- `MESSAGE_HEADER_BYTE = 0x23` from the shared config. -/
def MESSAGE_HEADER_BYTE : Nat := 0x23

/-- `BUFFER_SIZE = 63` from send.js. -/
def BUFFER_SIZE : Nat := 63

/-! ### Write-side ByteBuffer model

`new ByteBuffer(n)` allocates an `n`-byte zero-initialised backing store
with the write cursor at 0.  Relative writes store bytes at the cursor and
advance it.  Written byte values are the JS `value & 0xFF` truncations,
i.e. `% 256` of the corresponding shifted value. -/

structure WB where
  buf : List Nat
  offset : Nat
deriving Repr

/-- `new ByteBuffer(n)`: zero-filled backing store, cursor at 0. -/
def WB.alloc (n : Nat) : WB := ⟨List.replicate n 0, 0⟩

/-- `writeByte(v)`: stores `v & 0xFF` at the cursor, advances by 1. -/
def WB.writeByte (wb : WB) (v : Nat) : WB :=
  ⟨wb.buf.set wb.offset (v % 256), wb.offset + 1⟩

/-- `writeUint16(v)` big-endian: bytes `(v >>> 8) & 0xFF`, `v & 0xFF`. -/
def WB.writeUint16 (wb : WB) (v : Nat) : WB :=
  (wb.writeByte (v / 2 ^ 8)).writeByte v

/-- `writeUint32(v)` big-endian: bytes `(v >>> 24) & 0xFF` … `v & 0xFF`. -/
def WB.writeUint32 (wb : WB) (v : Nat) : WB :=
  ((((wb.writeByte (v / 2 ^ 24)).writeByte (v / 2 ^ 16)).writeByte (v / 2 ^ 8)).writeByte v)

/-- `append(bytes)`: copies the byte values verbatim at the cursor
(the source appends a wrapped `Uint8Array`, a plain memcpy). -/
def WB.append (wb : WB) (bs : List Nat) : WB :=
  bs.foldl (fun w b => ⟨w.buf.set w.offset b, w.offset + 1⟩) wb

/-! ### `BuiltMessage._encodeLong`

`_encodeLong(addTrezorHeaders)` allocates `fullSize` bytes, optionally
writes the two sentinel bytes, then typeId (u16 BE), then the payload
length (u32 BE, computed from the payload), then the payload, and returns
the whole backing store (`new Uint8Array(encodedByteBuffer.buffer)`).
Here `typeId` stands for `this.type` and `bytes` for the externally
produced protobuf serialization `this.message.encodeAB()`. -/
def encodeLong (typeId : Nat) (bytes : List Nat) (addTrezorHeaders : Bool) : List Nat :=
  let headerSize : Nat := HEADER_SIZE
  let fullSize : Nat := (if addTrezorHeaders then headerSize else headerSize - 2) + bytes.length
  let b0 : WB := WB.alloc fullSize
  let b1 : WB :=
    if addTrezorHeaders then (b0.writeByte MESSAGE_HEADER_BYTE).writeByte MESSAGE_HEADER_BYTE
    else b0
  let b2 : WB := b1.writeUint16 typeId
  let b3 : WB := b2.writeUint32 bytes.length
  let b4 : WB := b3.append bytes
  b4.buf

/-! ### `BuiltMessage.encode` (chunk splitting)

`count = Math.floor((bytes.length - 1) / size) + 1`; `Math.floor` of an
integer quotient is floor division, i.e. `Int.fdiv`.  Chunk `i` is
`bytes.subarray(i*size, (i+1)*size)` copied into a fresh zeroed 63-byte
array. -/

/-- The i-th chunk: clamped slice `bytes[i*63 : (i+1)*63]` set into a
zero-initialised 63-byte buffer. -/
def splitChunk (bytes : List Nat) (i : Nat) : List Nat :=
  let slice := (bytes.drop (i * BUFFER_SIZE)).take BUFFER_SIZE
  slice ++ List.replicate (BUFFER_SIZE - slice.length) 0

/-- `Math.floor((n - 1) / 63) + 1`, on integers. -/
def chunkCount (n : Nat) : Int := (n - 1 : Int).fdiv 63 + 1

/-- The chunk-splitting loop of `BuiltMessage.encode`. -/
def encodeChunks (bytes : List Nat) : List (List Nat) :=
  (List.range (chunkCount bytes.length).toNat).map (splitChunk bytes)

/-- `BuiltMessage.encode()` given the resolved type and protobuf bytes. -/
def encodeOf (typeId : Nat) (bytes : List Nat) : List (List Nat) :=
  encodeChunks (encodeLong typeId bytes true)

/-- `BuiltMessage.encodeOne()` given the resolved type and protobuf bytes:
`Buffer.from([...this._encodeLong(false)])`, same byte values. -/
def encodeOneOf (typeId : Nat) (bytes : List Nat) : List Nat :=
  encodeLong typeId bytes false

/-! ### Read-side ByteBuffer model

The protocol file wraps the incoming bytes in a ByteBuffer and reads
relative to an advancing cursor.  Every relative read asserts
`offset + width <= limit` and throws a range error otherwise; here the
`limit` is the byte count of the wrapped input.  `readByte` is the
library's `readInt8` (signed).  `readUint16` / `readUint32` are
big-endian. -/

/-- Read cursor over a wrapped byte sequence (`limit` = full length). -/
structure BB where
  bytes : List Nat
  offset : Nat
deriving Repr, DecidableEq

/-- The two failure modes of the read path: the ByteBuffer bounds assert
(a range error, "Illegal offset"), and the explicit
"Didn't receive expected header signature." throw in `decodeChunked`. -/
inductive ProtoError where
  | illegalOffset
  | headerSignatureMismatch
deriving Repr, DecidableEq

/-- `readByte()` = `readInt8()`: signed byte at the cursor. -/
def BB.readByte (bb : BB) : Except ProtoError (Int × BB) :=
  if bb.offset + 1 ≤ bb.bytes.length then
    let b := bb.bytes.getD bb.offset 0
    .ok (if b < 128 then (b : Int) else (b : Int) - 256, ⟨bb.bytes, bb.offset + 1⟩)
  else .error .illegalOffset

/-- `readUint16()` big-endian. -/
def BB.readUint16 (bb : BB) : Except ProtoError (Nat × BB) :=
  if bb.offset + 2 ≤ bb.bytes.length then
    .ok (bb.bytes.getD bb.offset 0 * 2 ^ 8 + bb.bytes.getD (bb.offset + 1) 0,
         ⟨bb.bytes, bb.offset + 2⟩)
  else .error .illegalOffset

/-- `readUint32()` big-endian. -/
def BB.readUint32 (bb : BB) : Except ProtoError (Nat × BB) :=
  if bb.offset + 4 ≤ bb.bytes.length then
    .ok (bb.bytes.getD bb.offset 0 * 2 ^ 24 + bb.bytes.getD (bb.offset + 1) 0 * 2 ^ 16 +
           bb.bytes.getD (bb.offset + 2) 0 * 2 ^ 8 + bb.bytes.getD (bb.offset + 3) 0,
         ⟨bb.bytes, bb.offset + 4⟩)
  else .error .illegalOffset

/-- Result of `readHeader`: `{ typeId, length }`. -/
structure MessageHeader where
  typeId : Nat
  length : Nat
deriving Repr, DecidableEq

/-- `readHeader(buffer)`: u16 typeId then u32 length, cursor advances. -/
def readHeader (bb : BB) : Except ProtoError (MessageHeader × BB) := do
  let (typeId, bb) ← bb.readUint16
  let (length, bb) ← bb.readUint32
  .ok (⟨typeId, length⟩, bb)

/-- Result of `readHeaderChunked`: `{ sharp1, sharp2, typeId, length }`. -/
structure ChunkedHeader where
  sharp1 : Int
  sharp2 : Int
  typeId : Nat
  length : Nat
deriving Repr, DecidableEq

/-- `readHeaderChunked(buffer)`: two signed bytes, u16 typeId, u32 length. -/
def readHeaderChunked (bb : BB) : Except ProtoError (ChunkedHeader × BB) := do
  let (sharp1, bb) ← bb.readByte
  let (sharp2, bb) ← bb.readByte
  let (typeId, bb) ← bb.readUint16
  let (length, bb) ← bb.readUint32
  .ok (⟨sharp1, sharp2, typeId, length⟩, bb)

/-- Result of `decode`: `{ typeId, buffer }`. -/
structure Decoded where
  typeId : Nat
  buffer : List Nat
deriving Repr, DecidableEq

/-- `decode(data)`: wraps the input (`ByteBuffer.concat([data])`, cursor
at 0), reads the bare header, and returns the typeId together with
`byteBuffer.toBuffer()` — the library returns the contents between the
current `offset` and `limit`, i.e. the bytes after the 6-byte header. -/
def decode (data : List Nat) : Except ProtoError Decoded := do
  let byteBuffer : BB := ⟨data, 0⟩
  let (h, bb1) ← readHeader byteBuffer
  .ok ⟨h.typeId, bb1.bytes.drop bb1.offset⟩

/-- Result of `decodeChunked`: `{ length, typeId, restBuffer }`. -/
structure DecodedChunked where
  length : Nat
  typeId : Nat
  restBuffer : BB
deriving Repr, DecidableEq

/-- `decodeChunked(bytes)`: wraps the input, reads the chunked header,
then checks both sentinel bytes against `MESSAGE_HEADER_BYTE` (`0x23`)
and throws the header-signature error when either differs. -/
def decodeChunked (bytes : List Nat) : Except ProtoError DecodedChunked := do
  let byteBuffer : BB := ⟨bytes, 0⟩
  let (h, bb1) ← readHeaderChunked byteBuffer
  if h.sharp1 ≠ (MESSAGE_HEADER_BYTE : Int) ∨ h.sharp2 ≠ (MESSAGE_HEADER_BYTE : Int) then
    .error .headerSignatureMismatch
  else
    .ok ⟨h.length, h.typeId, bb1⟩

/-! ### `cleanupInput`

The input sanitizer walks a dynamically typed JS value.  We model JS
values as a tree: `vnull` (null), `vundef` (undefined / array hole),
`prim` (any non-null primitive: number, string, boolean — opaque here),
`arr` (Array) and `obj` (plain object, fields in insertion order).

The source mutates in place; the model returns the post-call state of
the argument.  `Option` is used for runs that produce no result: the
`TypeError` raised by `delete message.$$hashKey` when `cleanupInput` is
reached with `null` (which happens for a `null` element inside an array
field, since `typeof null === "object"`), and fuel exhaustion.  The
`fuel` meter only makes the source's terminating recursion (which
re-walks an array after its `forEach` pass) structurally terminating;
every theorem either conditions on a `some` result or supplies ample
fuel. -/

inductive JSValue where
  | vnull
  | vundef
  | prim (tag : Nat)
  | arr (elems : List JSValue)
  | obj (fields : List (String × JSValue))

mutual

/-- `delete arr[i]` leaves a hole that reads as `undefined`; an explicit
`undefined` element is deleted by the `value == null` branch with the
same observable result, so both states are `vundef`. -/
def cleanupInput : Nat → JSValue → Option JSValue
  | 0, _ => none
  | _ + 1, .vnull => none        -- delete (null).$$hashKey throws TypeError
  | _ + 1, .vundef => none       -- delete (undefined).$$hashKey throws TypeError
  | _ + 1, .prim t => some (.prim t)  -- ToObject wrapper, no enumerable own keys
  | fuel + 1, .obj fs =>
    -- delete message.$$hashKey, then the for-in loop
    (cleanupFields fuel (fs.filter (fun kv => kv.1 ≠ "$$hashKey"))).map .obj
  | fuel + 1, .arr es =>
    -- for-in over an array visits the present element indices
    (cleanupArrElems fuel es).map .arr

/-- Loop body applied to a non-null value: the `Array.isArray` branch
(`forEach` over the elements) followed by the `typeof value === "object"`
branch (recursive `cleanupInput` on the — now element-cleaned — value). -/
def cleanupValue : Nat → JSValue → Option JSValue
  | 0, _ => none
  | fuel + 1, .arr es => do
    let es1 ← cleanupForEach fuel es
    cleanupInput fuel (.arr es1)
  | fuel + 1, .obj fs => cleanupInput fuel (.obj fs)
  | _ + 1, v => some v  -- primitives: neither branch fires

/-- The for-in loop over an object's fields: a `null`/`undefined` value is
deleted, any other value goes through both value branches. -/
def cleanupFields : Nat → List (String × JSValue) → Option (List (String × JSValue))
  | 0, _ => none
  | _ + 1, [] => some []
  | fuel + 1, (k, v) :: rest =>
    match v with
    | .vnull => cleanupFields fuel rest
    | .vundef => cleanupFields fuel rest
    | v => do
      let v1 ← cleanupValue fuel v
      let rest1 ← cleanupFields fuel rest
      some ((k, v1) :: rest1)

/-- `value.forEach((i) => { if (typeof i === "object") cleanupInput(i); })`:
`typeof` is `"object"` for `null` (TypeError inside `cleanupInput`),
arrays and objects; `undefined` and primitives are left alone. -/
def cleanupForEach : Nat → List JSValue → Option (List JSValue)
  | 0, _ => none
  | _ + 1, [] => some []
  | fuel + 1, e :: rest => do
    let e1 ←
      match e with
      | .vnull => cleanupInput fuel .vnull
      | .arr es => cleanupInput fuel (.arr es)
      | .obj fs => cleanupInput fuel (.obj fs)
      | e => some e
    let rest1 ← cleanupForEach fuel rest
    some (e1 :: rest1)

/-- The for-in loop over an array (reached via `cleanupInput` on an array
value): `null`/`undefined` elements are deleted (leaving holes), other
elements go through both value branches. -/
def cleanupArrElems : Nat → List JSValue → Option (List JSValue)
  | 0, _ => none
  | _ + 1, [] => some []
  | fuel + 1, e :: rest => do
    let e1 ←
      match e with
      | .vnull => some JSValue.vundef
      | .vundef => some JSValue.vundef
      | e => cleanupValue fuel e
    let rest1 ← cleanupArrElems fuel rest
    some (e1 :: rest1)

end

/-! ### The message registry model and `BuiltMessage`

The protobuf registry (`Messages`) and serializer (`encodeAB`) are
external collaborators; they are opaque parameters here.  A builder
carries its `$type.options["(wire_type)"]` entry (present iff the option
is set to a number) and its serialization function. -/

structure MessageBuilder where
  /-- `this.message.$type.options["(wire_type)"]` when it is a number. -/
  wireTypeOption : Option Nat
  /-- `this.message.encodeAB()` as a function of the (cleaned) data. -/
  encodeAB : JSValue → List Nat

structure Messages where
  messagesByName : String → Option MessageBuilder
  messageTypes : String → Option Nat

/-- Failures on the build path: the explicit
`The message name … is not found.` throw, the `TypeError` thrown inside
`cleanupInput`, and the `TypeError("Illegal value")` raised by
`ByteBuffer.writeUint16` when `this.type` is `undefined`. -/
inductive SendError where
  | messageNameNotFound
  | cleanupTypeError
  | illegalValue
deriving Repr, DecidableEq

/-- The state of a constructed `BuiltMessage`: the resolved builder, the
(cleaned, in-place mutated) data it was built from, and `this.type`,
which is left `none` (i.e. `undefined`) when neither the `(wire_type)`
option nor the `MessageType_<name>` table entry resolves. -/
structure BuiltMessage where
  builder : MessageBuilder
  data : JSValue
  type : Option Nat

/-- The `BuiltMessage` constructor: builder lookup (throws when the name
is unknown), `cleanupInput(data)` (in place; the model keeps the
post-call state), then wire-type resolution with no error check. -/
def builtMessage (fuel : Nat) (messages : Messages) (name : String) (data : JSValue) :
    Except SendError BuiltMessage :=
  match messages.messagesByName name with
  | none => .error .messageNameNotFound
  | some builder =>
    match cleanupInput fuel data with
    | none => .error .cleanupTypeError
    | some cleaned =>
      let type : Option Nat :=
        match builder.wireTypeOption with
        | some w => some w
        | none => messages.messageTypes ("MessageType_" ++ name)
      .ok ⟨builder, cleaned, type⟩

/-- `_encodeLong` on a constructed message: `writeUint16(this.type)`
throws `TypeError("Illegal value")` when `this.type` is `undefined`. -/
def BuiltMessage.encodeLongM (m : BuiltMessage) (addTrezorHeaders : Bool) :
    Except SendError (List Nat) :=
  match m.type with
  | none => .error .illegalValue
  | some t => .ok (encodeLong t (m.builder.encodeAB m.data) addTrezorHeaders)

/-- `buildBuffers(messages, name, data)`: construct, then `encode()`. -/
def buildBuffers (fuel : Nat) (messages : Messages) (name : String) (data : JSValue) :
    Except SendError (List (List Nat)) := do
  let m ← builtMessage fuel messages name data
  let bytes ← m.encodeLongM true
  .ok (encodeChunks bytes)

/-- `buildOne(messages, name, data)`: construct, then `encodeOne()`. -/
def buildOne (fuel : Nat) (messages : Messages) (name : String) (data : JSValue) :
    Except SendError (List Nat) := do
  let m ← builtMessage fuel messages name data
  m.encodeLongM false

/-! ### `sendBuffers` / `buildAndSend`

`sendBuffers` awaits `sender(buffer)` for each buffer in order; an
awaited rejection propagates immediately and stops the loop.  The sender
is modelled as a state-passing function so that each call sees the
effects of the previous one, and the run records the trace of buffers
actually submitted, in submission order. -/

def sendBuffers {S E : Type} (sender : S → List Nat → S × Except E Unit) :
    S → List (List Nat) → S × List (List Nat) × Except E Unit
  | s, [] => (s, [], .ok ())
  | s, buffer :: rest =>
    match sender s buffer with
    | (s1, .error e) => (s1, [buffer], .error e)
    | (s1, .ok ()) =>
      let (s2, trace, r) := sendBuffers sender s1 rest
      (s2, buffer :: trace, r)

/-- `buildAndSend(messages, sender, name, data)` =
`sendBuffers(sender, buildBuffers(messages, name, data))`. -/
def buildAndSend {S E : Type} (fuel : Nat) (messages : Messages)
    (sender : S → List Nat → S × Except E Unit) (s : S) (name : String) (data : JSValue) :
    Except SendError (S × List (List Nat) × Except E Unit) :=
  (buildBuffers fuel messages name data).map (sendBuffers sender s)

/-! ### Cleanliness predicate for `cleanupInput` results

`NoJunk v` says: every object reachable in `v` (through object fields
and array elements) has no `$$hashKey` field and no field whose value is
`null` or `undefined`. -/

def NoJunk : JSValue → Prop
  | .vnull => True
  | .vundef => True
  | .prim _ => True
  | .arr es => ∀ e ∈ es, NoJunk e
  | .obj fs => ∀ k v, (k, v) ∈ fs → k ≠ "$$hashKey" ∧ v ≠ .vnull ∧ v ≠ .vundef ∧ NoJunk v
decreasing_by
· have h1 := List.sizeOf_lt_of_mem ‹e ∈ es›
  simp_wf
  omega
· have h1 := List.sizeOf_lt_of_mem ‹(k, v) ∈ fs›
  simp only [Prod.mk.sizeOf_spec] at h1
  simp_wf
  omega

/-! ### Concrete fixtures (used by witnesses and counterexamples)

A minimal registry: `"Sample"` resolves to a builder with an explicit
`(wire_type)` of 5 serializing every input to `[1, 2, 3]`; `"Orphan"`
resolves to a builder with no `(wire_type)` option, and the
`messageTypes` table is empty, so neither resolution path succeeds. -/

def sampleBuilder : MessageBuilder := ⟨some 5, fun _ => [1, 2, 3]⟩

def sampleMessages : Messages :=
  ⟨fun n => if n = "Sample" then some sampleBuilder else none, fun _ => none⟩

def orphanBuilder : MessageBuilder := ⟨none, fun _ => []⟩

def orphanMessages : Messages :=
  ⟨fun n => if n = "Orphan" then some orphanBuilder else none, fun _ => none⟩

/-! ## Helper lemmas about the write-side model -/

theorem WB.writeByte_eq_append (wb : WB) (v : Nat) : wb.writeByte v = wb.append [v % 256] := rfl

theorem WB.append_append (wb : WB) (xs ys : List Nat) :
    (wb.append xs).append ys = wb.append (xs ++ ys) :=
  (List.foldl_append ..).symm

theorem WB.append_run (bs : List Nat) : ∀ (pre : List Nat) (m off : Nat),
    bs.length ≤ m → off = pre.length →
    WB.append ⟨pre ++ List.replicate m 0, off⟩ bs =
      ⟨pre ++ bs ++ List.replicate (m - bs.length) 0, off + bs.length⟩ := by
  induction bs with
  | nil => intro pre m off _ ho; simp [WB.append, ho]
  | cons b bs ih =>
    intro pre m off hm ho
    obtain ⟨m', rfl⟩ : ∃ m', m = m' + 1 := ⟨m - 1, by simp at hm; omega⟩
    show WB.append ⟨(pre ++ List.replicate (m' + 1) 0).set off b, off + 1⟩ bs = _
    rw [List.set_append_right _ _ (by omega), List.replicate_succ, ho, Nat.sub_self]
    have h1 : pre ++ ((0 : Nat) :: List.replicate m' 0).set 0 b =
        (pre ++ [b]) ++ List.replicate m' 0 := by simp
    rw [h1, ih (pre ++ [b]) m' (pre.length + 1) (by simp at hm ⊢; omega) (by simp)]
    simp at hm
    refine congrArg₂ WB.mk (by simp) (by simp; omega)

theorem WB.append_alloc (bs : List Nat) (m : Nat) (hm : bs.length ≤ m) :
    WB.append (WB.alloc m) bs = ⟨bs ++ List.replicate (m - bs.length) 0, bs.length⟩ := by
  have h := WB.append_run bs [] m 0 hm rfl
  simpa [WB.alloc] using h

/-- Byte-level shape of `_encodeLong`, with no range assumptions: the
written header bytes are the `& 0xFF` truncations of the shifted fields. -/
theorem encodeLong_eq (typeId : Nat) (p : List Nat) (s : Bool) :
    encodeLong typeId p s =
      (if s then [0x23, 0x23] else []) ++
        [typeId / 2 ^ 8 % 256, typeId % 256,
         p.length / 2 ^ 24 % 256, p.length / 2 ^ 16 % 256, p.length / 2 ^ 8 % 256,
         p.length % 256] ++ p := by
  cases s with
  | false =>
    simp only [encodeLong, HEADER_SIZE, MESSAGE_HEADER_BYTE, WB.writeUint16, WB.writeUint32,
      WB.writeByte_eq_append, WB.append_append, if_false, Bool.false_eq_true]
    rw [WB.append_alloc _ _ (by simp; omega)]
    simp
    omega
  | true =>
    simp only [encodeLong, HEADER_SIZE, MESSAGE_HEADER_BYTE, WB.writeUint16, WB.writeUint32,
      WB.writeByte_eq_append, WB.append_append, if_true]
    rw [WB.append_alloc _ _ (by simp; omega)]
    simp
    omega

/-! ## Helper lemmas about the read-side model -/

theorem readHeader_eq (data : List Nat) (h : 6 ≤ data.length) :
    readHeader ⟨data, 0⟩ =
      .ok (⟨data.getD 0 0 * 2 ^ 8 + data.getD 1 0,
            data.getD 2 0 * 2 ^ 24 + data.getD 3 0 * 2 ^ 16 +
              data.getD 4 0 * 2 ^ 8 + data.getD 5 0⟩,
           ⟨data, 6⟩) := by
  show (BB.readUint16 ⟨data, 0⟩ >>= fun p => _) = _
  unfold BB.readUint16
  rw [if_pos (show (0 : Nat) + 2 ≤ data.length by omega)]
  show (BB.readUint32 ⟨data, 2⟩ >>= fun p => _) = _
  unfold BB.readUint32
  rw [if_pos (show (2 : Nat) + 4 ≤ data.length by omega)]
  rfl

theorem readHeaderChunked_eq (data : List Nat) (h : 8 ≤ data.length) :
    readHeaderChunked ⟨data, 0⟩ =
      .ok (⟨(if data.getD 0 0 < 128 then (data.getD 0 0 : Int) else (data.getD 0 0 : Int) - 256),
            (if data.getD 1 0 < 128 then (data.getD 1 0 : Int) else (data.getD 1 0 : Int) - 256),
            data.getD 2 0 * 2 ^ 8 + data.getD 3 0,
            data.getD 4 0 * 2 ^ 24 + data.getD 5 0 * 2 ^ 16 +
              data.getD 6 0 * 2 ^ 8 + data.getD 7 0⟩,
           ⟨data, 8⟩) := by
  show (BB.readByte ⟨data, 0⟩ >>= fun p => _) = _
  unfold BB.readByte
  rw [if_pos (show (0 : Nat) + 1 ≤ data.length by omega)]
  show (BB.readByte ⟨data, 1⟩ >>= fun p => _) = _
  unfold BB.readByte
  rw [if_pos (show (1 : Nat) + 1 ≤ data.length by omega)]
  show (BB.readUint16 ⟨data, 2⟩ >>= fun p => _) = _
  unfold BB.readUint16
  rw [if_pos (show (2 : Nat) + 2 ≤ data.length by omega)]
  show (BB.readUint32 ⟨data, 4⟩ >>= fun p => _) = _
  unfold BB.readUint32
  rw [if_pos (show (4 : Nat) + 4 ≤ data.length by omega)]
  rfl

/-- A signed byte read equals the sentinel exactly when the byte is `0x23`. -/
theorem signedByte_eq_header_iff (b : Nat) (hb : b < 256) :
    ((if b < 128 then (b : Int) else (b : Int) - 256) = (MESSAGE_HEADER_BYTE : Int)) ↔
      b = MESSAGE_HEADER_BYTE := by
  unfold MESSAGE_HEADER_BYTE
  split <;> constructor <;> intro h <;> omega

theorem exceptBind_ok {E α β : Type} (a : α) (f : α → Except E β) :
    (Except.ok a >>= f : Except E β) = f a := rfl

theorem exceptBind_error {E α β : Type} (e : E) (f : α → Except E β) :
    ((Except.error e : Except E α) >>= f) = Except.error e := rfl

theorem readHeaderChunked_err (data : List Nat) (h : data.length < 8) :
    readHeaderChunked ⟨data, 0⟩ = .error .illegalOffset := by
  show (BB.readByte ⟨data, 0⟩ >>= fun p => _) = _
  unfold BB.readByte
  by_cases h1 : (0 : Nat) + 1 ≤ data.length
  · rw [if_pos h1]
    show (BB.readByte ⟨data, 1⟩ >>= fun p => _) = _
    unfold BB.readByte
    by_cases h2 : (1 : Nat) + 1 ≤ data.length
    · rw [if_pos h2]
      show (BB.readUint16 ⟨data, 2⟩ >>= fun p => _) = _
      unfold BB.readUint16
      by_cases h3 : (2 : Nat) + 2 ≤ data.length
      · rw [if_pos h3]
        show (BB.readUint32 ⟨data, 4⟩ >>= fun p => _) = _
        unfold BB.readUint32
        rw [if_neg (show ¬((4 : Nat) + 4 ≤ data.length) by omega)]
        rfl
      · rw [if_neg h3]; rfl
    · rw [if_neg h2]; rfl
  · rw [if_neg h1]; rfl

theorem decode_post (t l : Nat) (bb : BB) (data : List Nat)
    (hread : readHeader ⟨data, 0⟩ = .ok (⟨t, l⟩, bb)) :
    decode data = .ok ⟨t, bb.bytes.drop bb.offset⟩ := by
  show (readHeader ⟨data, 0⟩ >>= fun p => _) = _
  rw [hread]
  rfl

theorem decodeChunked_post (s1 s2 : Int) (t l : Nat) (bb : BB) (data : List Nat)
    (hread : readHeaderChunked ⟨data, 0⟩ = .ok (⟨s1, s2, t, l⟩, bb)) :
    decodeChunked data =
      if s1 ≠ (MESSAGE_HEADER_BYTE : Int) ∨ s2 ≠ (MESSAGE_HEADER_BYTE : Int) then
        .error .headerSignatureMismatch
      else .ok ⟨l, t, bb⟩ := by
  show (readHeaderChunked ⟨data, 0⟩ >>= fun p => _) = _
  rw [hread]
  rfl

theorem decodeChunked_err_post (data : List Nat) (e : ProtoError)
    (hread : readHeaderChunked ⟨data, 0⟩ = .error e) :
    decodeChunked data = .error e := by
  show (readHeaderChunked ⟨data, 0⟩ >>= fun p => _) = _
  rw [hread]
  rfl

/-! ## Claim theorems -/

/-- C1: for every typeId in `[0, 65535]` and every payload (any length up
to the 32-bit limit of a JS buffer, including length 0), reading the bare
6-byte header of the short-form encoding (`_encodeLong` without the
sentinel, i.e. `encodeOne`'s buffer) yields exactly `{typeId, length}`
with `length = payload.length`, and the bytes following the 6-byte header
equal the payload byte-for-byte. -/
theorem C1_bare_header_roundtrip (typeId : Nat) (p : List Nat)
    (ht : typeId ≤ 65535) (hp : p.length < 2 ^ 32) :
    readHeader ⟨encodeLong typeId p false, 0⟩ =
      .ok (⟨typeId, p.length⟩, ⟨encodeLong typeId p false, 6⟩) ∧
    (encodeLong typeId p false).drop 6 = p := by
  have he := encodeLong_eq typeId p false
  have hlen : 6 ≤ (encodeLong typeId p false).length := by rw [he]; simp
  constructor
  · rw [readHeader_eq _ hlen]
    rw [he]
    simp only [Bool.false_eq_true, if_false, List.nil_append, List.cons_append,
      List.getD_cons_zero, List.getD_cons_succ, Except.ok.injEq, Prod.mk.injEq,
      MessageHeader.mk.injEq]
    refine ⟨⟨by omega, by omega⟩, trivial⟩
  · rw [he]
    simp

/-- C1 witness: concrete instantiation at typeId `0xABCD`, payload `[7, 8]`. -/
theorem C1_witness :
    ((0xABCD : Nat) ≤ 65535 ∧ ([7, 8] : List Nat).length < 2 ^ 32) ∧
    (readHeader ⟨encodeLong 0xABCD [7, 8] false, 0⟩ =
      .ok (⟨0xABCD, ([7, 8] : List Nat).length⟩, ⟨encodeLong 0xABCD [7, 8] false, 6⟩) ∧
    (encodeLong 0xABCD [7, 8] false).drop 6 = [7, 8]) :=
  ⟨⟨by norm_num, by norm_num⟩,
   C1_bare_header_roundtrip 0xABCD [7, 8] (by norm_num) (by norm_num)⟩

/-- C5: `_encodeLong` returns exactly `headerSize + payload.length` bytes
(`headerSize` 8 with the sentinel, 6 without) laid out as: the two `0x23`
sentinel bytes (only when requested), the typeId as big-endian u16, the
payload length as big-endian u32 computed from the payload itself, then
the payload verbatim; in particular the length field encodes
`payload.length`. -/
theorem C5_encodeLong_layout (typeId : Nat) (p : List Nat) (s : Bool)
    (ht : typeId < 2 ^ 16) (hp : p.length < 2 ^ 32) :
    (encodeLong typeId p s).length = (if s then 8 else 6) + p.length ∧
    encodeLong typeId p s =
      (if s then [MESSAGE_HEADER_BYTE, MESSAGE_HEADER_BYTE] else []) ++
        [typeId / 2 ^ 8, typeId % 2 ^ 8] ++
        [p.length / 2 ^ 24, p.length / 2 ^ 16 % 2 ^ 8, p.length / 2 ^ 8 % 2 ^ 8,
         p.length % 2 ^ 8] ++ p := by
  have he := encodeLong_eq typeId p s
  have h1 : typeId / 2 ^ 8 % 256 = typeId / 2 ^ 8 := Nat.mod_eq_of_lt (by omega)
  have h2 : p.length / 2 ^ 24 % 256 = p.length / 2 ^ 24 := Nat.mod_eq_of_lt (by omega)
  constructor
  · rw [he]; cases s <;> simp <;> omega
  · rw [he, h1, h2]; cases s <;> simp [MESSAGE_HEADER_BYTE]

/-- C5 witness: the spec's worked example, typeId 2, payload 100 × `0xAA`,
sentinel requested. -/
theorem C5_witness :
    ((2 : Nat) < 2 ^ 16 ∧ (List.replicate 100 (0xAA : Nat)).length < 2 ^ 32) ∧
    ((encodeLong 2 (List.replicate 100 0xAA) true).length =
        (if true then 8 else 6) + (List.replicate 100 (0xAA : Nat)).length ∧
      encodeLong 2 (List.replicate 100 0xAA) true =
        (if true then [MESSAGE_HEADER_BYTE, MESSAGE_HEADER_BYTE] else []) ++
          [2 / 2 ^ 8, 2 % 2 ^ 8] ++
          [(List.replicate 100 (0xAA : Nat)).length / 2 ^ 24,
           (List.replicate 100 (0xAA : Nat)).length / 2 ^ 16 % 2 ^ 8,
           (List.replicate 100 (0xAA : Nat)).length / 2 ^ 8 % 2 ^ 8,
           (List.replicate 100 (0xAA : Nat)).length % 2 ^ 8] ++
          List.replicate 100 0xAA) :=
  ⟨⟨by norm_num, by norm_num⟩,
   C5_encodeLong_layout 2 (List.replicate 100 0xAA) true (by norm_num) (by norm_num)⟩

/-- C4 counterexample: on the 8-byte input `00 01 00 00 00 02 AA BB`
(typeId 1, declared length 2, payload `AA BB`), `decode` returns the
2-byte slice after the 6-byte header — the library's `toBuffer()` copies
the contents between the advanced read `offset` and the `limit` — not
the original 8-byte buffer the claim asserts. -/
theorem C4_counterexample :
    decode [0, 1, 0, 0, 0, 2, 170, 187] = .ok ⟨1, [170, 187]⟩ ∧
    Decoded.mk 1 [170, 187] ≠ Decoded.mk 1 [0, 1, 0, 0, 0, 2, 170, 187] :=
  ⟨rfl, by decide⟩

/-- C4 amended: for every input of at least 6 bytes, `decode` returns the
typeId read big-endian from the first two bytes together with the bytes
of the input from offset 6 to the end (the slice following the bare
header) — not the original buffer including its header bytes. -/
theorem C4_decode_returns_rest (data : List Nat) (h : 6 ≤ data.length) :
    decode data = .ok ⟨data.getD 0 0 * 2 ^ 8 + data.getD 1 0, data.drop 6⟩ :=
  decode_post _ _ _ data (readHeader_eq data h)

/-- C4 witness: concrete instantiation at a 7-byte input. -/
theorem C4_witness :
    6 ≤ ([0, 2, 0, 0, 0, 1, 9] : List Nat).length ∧
    decode [0, 2, 0, 0, 0, 1, 9] =
      .ok ⟨([0, 2, 0, 0, 0, 1, 9] : List Nat).getD 0 0 * 2 ^ 8 +
             ([0, 2, 0, 0, 0, 1, 9] : List Nat).getD 1 0,
           ([0, 2, 0, 0, 0, 1, 9] : List Nat).drop 6⟩ :=
  ⟨by norm_num, C4_decode_returns_rest [0, 2, 0, 0, 0, 1, 9] (by norm_num)⟩

/-- C3: whenever the full 8-byte stream header is available but byte 0 or
byte 1 differs from `0x23`, `decodeChunked` fails with the
header-signature (protocol mismatch) error and returns no result,
whatever the typeId and length bytes are.  (Inputs shorter than 8 bytes
fail earlier with the range error instead — see C9.) -/
theorem C3_decodeChunked_sentinel (bytes : List Nat) (hlen : 8 ≤ bytes.length)
    (hb0 : bytes.getD 0 0 < 256) (hb1 : bytes.getD 1 0 < 256)
    (hbad : bytes.getD 0 0 ≠ MESSAGE_HEADER_BYTE ∨ bytes.getD 1 0 ≠ MESSAGE_HEADER_BYTE) :
    decodeChunked bytes = .error .headerSignatureMismatch := by
  rw [decodeChunked_post _ _ _ _ _ bytes (readHeaderChunked_eq bytes hlen)]
  have e0 := signedByte_eq_header_iff (bytes.getD 0 0) hb0
  have e1 := signedByte_eq_header_iff (bytes.getD 1 0) hb1
  rw [if_pos]
  rcases hbad with hb | hb
  · exact Or.inl (fun hx => hb (e0.mp hx))
  · exact Or.inr (fun hx => hb (e1.mp hx))

/-- C3 witness: the spec's example `23 24 00 01 00 00 00 05`, whose
second sentinel byte is wrong. -/
theorem C3_witness :
    (8 ≤ ([0x23, 0x24, 0x00, 0x01, 0x00, 0x00, 0x00, 0x05] : List Nat).length ∧
     ([0x23, 0x24, 0x00, 0x01, 0x00, 0x00, 0x00, 0x05] : List Nat).getD 0 0 < 256 ∧
     ([0x23, 0x24, 0x00, 0x01, 0x00, 0x00, 0x00, 0x05] : List Nat).getD 1 0 < 256 ∧
     (([0x23, 0x24, 0x00, 0x01, 0x00, 0x00, 0x00, 0x05] : List Nat).getD 0 0 ≠
         MESSAGE_HEADER_BYTE ∨
       ([0x23, 0x24, 0x00, 0x01, 0x00, 0x00, 0x00, 0x05] : List Nat).getD 1 0 ≠
         MESSAGE_HEADER_BYTE)) ∧
    decodeChunked [0x23, 0x24, 0x00, 0x01, 0x00, 0x00, 0x00, 0x05] =
      .error .headerSignatureMismatch :=
  ⟨⟨by norm_num, by norm_num, by norm_num, by right; decide⟩,
   C3_decodeChunked_sentinel [0x23, 0x24, 0x00, 0x01, 0x00, 0x00, 0x00, 0x05]
     (by norm_num) (by norm_num) (by norm_num) (by right; decide)⟩

/-- C7: for every input of at least 8 bytes whose first two bytes are
`0x23`, `decodeChunked` succeeds, returning the typeId read big-endian
from bytes 2–3, the declared length read big-endian from bytes 4–7, and
the rest-buffer cursor positioned at byte offset 8. -/
theorem C7_decodeChunked_ok (bytes : List Nat) (hlen : 8 ≤ bytes.length)
    (h0 : bytes.getD 0 0 = MESSAGE_HEADER_BYTE) (h1 : bytes.getD 1 0 = MESSAGE_HEADER_BYTE) :
    decodeChunked bytes =
      .ok ⟨bytes.getD 4 0 * 2 ^ 24 + bytes.getD 5 0 * 2 ^ 16 +
             bytes.getD 6 0 * 2 ^ 8 + bytes.getD 7 0,
           bytes.getD 2 0 * 2 ^ 8 + bytes.getD 3 0,
           ⟨bytes, 8⟩⟩ := by
  rw [decodeChunked_post _ _ _ _ _ bytes (readHeaderChunked_eq bytes hlen), h0, h1]
  rw [if_neg]
  simp only [MESSAGE_HEADER_BYTE]
  norm_num

/-- C7 witness: concrete instantiation on a well-formed stream header. -/
theorem C7_witness :
    (8 ≤ ([0x23, 0x23, 0x00, 0x02, 0x00, 0x00, 0x00, 0x64, 9, 9] : List Nat).length ∧
     ([0x23, 0x23, 0x00, 0x02, 0x00, 0x00, 0x00, 0x64, 9, 9] : List Nat).getD 0 0 =
       MESSAGE_HEADER_BYTE ∧
     ([0x23, 0x23, 0x00, 0x02, 0x00, 0x00, 0x00, 0x64, 9, 9] : List Nat).getD 1 0 =
       MESSAGE_HEADER_BYTE) ∧
    decodeChunked [0x23, 0x23, 0x00, 0x02, 0x00, 0x00, 0x00, 0x64, 9, 9] =
      .ok ⟨([0x23, 0x23, 0x00, 0x02, 0x00, 0x00, 0x00, 0x64, 9, 9] : List Nat).getD 4 0 * 2 ^ 24 +
             ([0x23, 0x23, 0x00, 0x02, 0x00, 0x00, 0x00, 0x64, 9, 9] : List Nat).getD 5 0 * 2 ^ 16 +
             ([0x23, 0x23, 0x00, 0x02, 0x00, 0x00, 0x00, 0x64, 9, 9] : List Nat).getD 6 0 * 2 ^ 8 +
             ([0x23, 0x23, 0x00, 0x02, 0x00, 0x00, 0x00, 0x64, 9, 9] : List Nat).getD 7 0,
           ([0x23, 0x23, 0x00, 0x02, 0x00, 0x00, 0x00, 0x64, 9, 9] : List Nat).getD 2 0 * 2 ^ 8 +
             ([0x23, 0x23, 0x00, 0x02, 0x00, 0x00, 0x00, 0x64, 9, 9] : List Nat).getD 3 0,
           ⟨[0x23, 0x23, 0x00, 0x02, 0x00, 0x00, 0x00, 0x64, 9, 9], 8⟩⟩ :=
  ⟨⟨by norm_num, by decide, by decide⟩,
   C7_decodeChunked_ok [0x23, 0x23, 0x00, 0x02, 0x00, 0x00, 0x00, 0x64, 9, 9]
     (by norm_num) (by decide) (by decide)⟩

/-- C9: for every input shorter than 8 bytes, `decodeChunked` fails with
the range (read-underflow) error and never with the header-signature
error, even when the bytes present already differ from `0x23`: the
sentinel check runs only after all 8 header bytes have been read. -/
theorem C9_decodeChunked_short_input (bytes : List Nat) (h : bytes.length < 8) :
    decodeChunked bytes = .error .illegalOffset :=
  decodeChunked_err_post bytes _ (readHeaderChunked_err bytes h)

/-- C9 witness: a 3-byte input whose first byte is already not `0x23`
still reports the underflow error, not the signature mismatch. -/
theorem C9_witness :
    ([0x00, 0x01, 0x02] : List Nat).length < 8 ∧
    decodeChunked [0x00, 0x01, 0x02] = .error .illegalOffset :=
  ⟨by norm_num, C9_decodeChunked_short_input [0x00, 0x01, 0x02] (by norm_num)⟩

/-! ## Chunk-splitting lemmas (towards C2) -/

theorem chunkCount_toNat (n : Nat) (h : 0 < n) :
    (chunkCount n).toNat = (n - 1) / 63 + 1 := by
  unfold chunkCount
  obtain ⟨m, rfl⟩ : ∃ m, n = m + 1 := ⟨n - 1, by omega⟩
  have h1 : ((m + 1 : Nat) : Int) - 1 = ((m : Nat) : Int) := by push_cast; ring
  rw [h1]
  have h2 : ((m : Nat) : Int).fdiv 63 = ((m / 63 : Nat) : Int) := by
    rw [Int.fdiv_eq_ediv _ (by norm_num)]
    exact_mod_cast rfl
  rw [h2]
  omega

theorem encodeChunks_small (bytes : List Nat) (h1 : 0 < bytes.length)
    (h2 : bytes.length ≤ 63) :
    encodeChunks bytes = [bytes ++ List.replicate (63 - bytes.length) 0] := by
  unfold encodeChunks
  rw [chunkCount_toNat _ h1, Nat.div_eq_of_lt (by omega : bytes.length - 1 < 63)]
  simp [splitChunk, BUFFER_SIZE, List.range_succ, List.take_of_length_le h2]

theorem encodeChunks_cons (bytes : List Nat) (h : 63 < bytes.length) :
    encodeChunks bytes = splitChunk bytes 0 :: encodeChunks (bytes.drop 63) := by
  unfold encodeChunks
  rw [chunkCount_toNat _ (by omega), chunkCount_toNat _ (by simp; omega)]
  have hc : (bytes.length - 1) / 63 + 1 = (((bytes.drop 63).length - 1) / 63 + 1) + 1 := by
    simp only [List.length_drop]
    rw [show bytes.length - 1 = (bytes.length - 64) + 63 from by omega,
      Nat.add_div_right _ (by norm_num)]
    omega
  rw [hc, List.range_succ_eq_map, List.map_cons, List.map_map]
  congr 1
  apply List.map_congr_left
  intro i _
  show splitChunk bytes (i + 1) = splitChunk (bytes.drop 63) i
  simp only [splitChunk, BUFFER_SIZE, List.drop_drop]
  rw [show (63 : Nat) + i * 63 = (i + 1) * 63 from by ring]

theorem splitChunk_zero_of_le (bytes : List Nat) (h : 63 ≤ bytes.length) :
    splitChunk bytes 0 = bytes.take 63 := by
  simp only [splitChunk, BUFFER_SIZE, Nat.zero_mul, List.drop_zero]
  have hl : (bytes.take 63).length = 63 := by simp; omega
  rw [hl, Nat.sub_self, List.replicate_zero, List.append_nil]

theorem encodeChunks_join (bytes : List Nat) (h : 0 < bytes.length) :
    (encodeChunks bytes).flatten =
      bytes ++ List.replicate ((encodeChunks bytes).length * 63 - bytes.length) 0 := by
  suffices H : ∀ n (bs : List Nat), bs.length = n → 0 < bs.length →
      (encodeChunks bs).flatten =
        bs ++ List.replicate ((encodeChunks bs).length * 63 - bs.length) 0 from
    H bytes.length bytes rfl h
  intro n
  induction n using Nat.strong_induction_on with
  | _ n ih =>
    intro bs hlen hpos
    by_cases hle : bs.length ≤ 63
    · rw [encodeChunks_small bs hpos hle]
      simp
    · rw [encodeChunks_cons bs (by omega)]
      have hdlen : (bs.drop 63).length = bs.length - 63 := by simp
      have ihz := ih (bs.length - 63) (by omega) (bs.drop 63) hdlen (by simp; omega)
      rw [List.flatten_cons, ihz, splitChunk_zero_of_le bs (by omega), List.length_cons,
        ← List.append_assoc, List.take_append_drop]
      have hcnt : (encodeChunks (bs.drop 63)).length * 63 - (bs.drop 63).length =
          ((encodeChunks (bs.drop 63)).length + 1) * 63 - bs.length := by
        simp only [List.length_drop]
        omega
      rw [hcnt]

/-- C2: for every byte sequence of length `n > 0`, the chunk splitter of
`BuiltMessage.encode` produces exactly `floor((n-1)/63) + 1 = ceil(n/63)`
chunks, each exactly 63 bytes; the concatenation of the chunks truncated
to `n` bytes is the original sequence, every byte at position `≥ n` in
the concatenation is zero, and the i-th chunk is the i-th 63-byte slice
(zero-padded), so the chunks appear in ascending slice order. -/
theorem C2_encodeChunks_spec (bytes : List Nat) (h : 0 < bytes.length) :
    (encodeChunks bytes).length = (bytes.length - 1) / 63 + 1 ∧
    (bytes.length - 1) / 63 + 1 = (bytes.length + 62) / 63 ∧
    (∀ c ∈ encodeChunks bytes, c.length = 63) ∧
    (encodeChunks bytes).flatten.take bytes.length = bytes ∧
    (encodeChunks bytes).flatten.drop bytes.length =
      List.replicate ((encodeChunks bytes).length * 63 - bytes.length) 0 ∧
    ∀ i (hi : i < (encodeChunks bytes).length),
      (encodeChunks bytes)[i] =
        (bytes.drop (i * 63)).take 63 ++
          List.replicate (63 - ((bytes.drop (i * 63)).take 63).length) 0 := by
  refine ⟨?_, ?_, ?_, ?_, ?_, ?_⟩
  · unfold encodeChunks
    rw [chunkCount_toNat _ h]
    simp
  · rw [show bytes.length + 62 = (bytes.length - 1) + 63 from by omega,
      Nat.add_div_right _ (by norm_num)]
  · intro c hc
    unfold encodeChunks at hc
    simp only [List.mem_map, List.mem_range] at hc
    obtain ⟨i, _, rfl⟩ := hc
    simp [splitChunk, BUFFER_SIZE]
  · rw [encodeChunks_join bytes h]
    exact List.take_left' rfl
  · rw [encodeChunks_join bytes h]
    exact List.drop_left' rfl
  · intro i hi
    have hi' : i < (chunkCount bytes.length).toNat := by
      simpa [encodeChunks] using hi
    simp [encodeChunks, splitChunk, BUFFER_SIZE]

/-- C2 witness: a concrete 65-byte sequence splits into two 63-byte
chunks. -/
theorem C2_witness :
    0 < (List.replicate 65 (7 : Nat)).length ∧
    ((encodeChunks (List.replicate 65 7)).length =
        ((List.replicate 65 (7 : Nat)).length - 1) / 63 + 1 ∧
      ((List.replicate 65 (7 : Nat)).length - 1) / 63 + 1 =
        ((List.replicate 65 (7 : Nat)).length + 62) / 63 ∧
      (∀ c ∈ encodeChunks (List.replicate 65 7), c.length = 63) ∧
      (encodeChunks (List.replicate 65 7)).flatten.take
          (List.replicate 65 (7 : Nat)).length = List.replicate 65 7 ∧
      (encodeChunks (List.replicate 65 7)).flatten.drop
          (List.replicate 65 (7 : Nat)).length =
        List.replicate ((encodeChunks (List.replicate 65 7)).length * 63 -
          (List.replicate 65 (7 : Nat)).length) 0 ∧
      ∀ i (hi : i < (encodeChunks (List.replicate 65 7)).length),
        (encodeChunks (List.replicate 65 7))[i] =
          ((List.replicate 65 (7 : Nat)).drop (i * 63)).take 63 ++
            List.replicate
              (63 - (((List.replicate 65 (7 : Nat)).drop (i * 63)).take 63).length) 0) :=
  ⟨by norm_num, C2_encodeChunks_spec (List.replicate 65 7) (by norm_num)⟩

/-! ## Sequential sending (towards C8) -/

theorem sendBuffers_trace {S E : Type} (sender : S → List Nat → S × Except E Unit) :
    ∀ (s : S) (buffers : List (List Nat)),
      (sendBuffers sender s buffers).2.1 <+: buffers ∧
      ((sendBuffers sender s buffers).2.2 = .ok () →
        (sendBuffers sender s buffers).2.1 = buffers) ∧
      (∀ e, (sendBuffers sender s buffers).2.2 = .error e →
        ∃ k, k < buffers.length ∧
          (sendBuffers sender s buffers).2.1 = buffers.take (k + 1)) := by
  intro s buffers
  induction buffers generalizing s with
  | nil =>
    refine ⟨⟨[], rfl⟩, fun _ => rfl, fun e he => ?_⟩
    rw [show sendBuffers sender s [] =
      (s, ([] : List (List Nat)), (Except.ok () : Except E Unit)) from rfl] at he
    simp at he
  | cons b rest ih =>
    rcases hsb : sender s b with ⟨s1, r⟩
    cases r with
    | error e =>
      have hstep : sendBuffers sender s (b :: rest) = (s1, [b], .error e) := by
        unfold sendBuffers
        rw [hsb]
      rw [hstep]
      exact ⟨⟨rest, rfl⟩, by simp, fun e' _ => ⟨0, by simp, by simp⟩⟩
    | ok u =>
      cases u
      rcases hrec : sendBuffers sender s1 rest with ⟨s2, tr, r2⟩
      have hstep : sendBuffers sender s (b :: rest) = (s2, b :: tr, r2) := by
        unfold sendBuffers
        rw [hsb]
        show (match sendBuffers sender s1 rest with
              | (s2, trace, r) => (s2, b :: trace, r)) = _
        rw [hrec]
      obtain ⟨hp, ihok, iherr⟩ := ih s1
      rw [hrec] at hp ihok iherr
      have hp' : tr <+: rest := hp
      have ihok' : r2 = Except.ok () → tr = rest := ihok
      have iherr' : ∀ e, r2 = Except.error e →
          ∃ k, k < rest.length ∧ tr = rest.take (k + 1) := iherr
      rw [hstep]
      refine ⟨?_, ?_, ?_⟩
      · show b :: tr <+: b :: rest
        obtain ⟨t, ht⟩ := hp'
        exact ⟨t, by rw [List.cons_append, ht]⟩
      · show r2 = Except.ok () → b :: tr = b :: rest
        intro hok
        rw [ihok' hok]
      · show ∀ e, r2 = Except.error e →
          ∃ k, k < (b :: rest).length ∧ b :: tr = (b :: rest).take (k + 1)
        intro e he
        obtain ⟨k, hk, htr⟩ := iherr' e he
        refine ⟨k + 1, by simp; omega, ?_⟩
        rw [List.take_succ_cons, htr]

/-- C8: `buildAndSend` feeds the chunks produced by `buildBuffers` to
`sendBuffers`, which submits them to the sender strictly in ascending
order, awaiting each result before the next call (the sender state is
threaded through the calls): the submission trace is a prefix of the
chunk list; when every send succeeds the trace is the whole list; when a
send fails the overall result is that failure, the trace stops at the
failing chunk (`k + 1` chunks for some `k`), and no later chunk is ever
submitted. -/
theorem C8_buildAndSend_sequential {S E : Type} (fuel : Nat) (messages : Messages)
    (sender : S → List Nat → S × Except E Unit) (s : S) (name : String) (data : JSValue)
    (bufs : List (List Nat)) (hbufs : buildBuffers fuel messages name data = .ok bufs) :
    buildAndSend fuel messages sender s name data = .ok (sendBuffers sender s bufs) ∧
    (sendBuffers sender s bufs).2.1 <+: bufs ∧
    ((sendBuffers sender s bufs).2.2 = .ok () → (sendBuffers sender s bufs).2.1 = bufs) ∧
    (∀ e, (sendBuffers sender s bufs).2.2 = .error e →
      ∃ k, k < bufs.length ∧ (sendBuffers sender s bufs).2.1 = bufs.take (k + 1)) := by
  obtain ⟨hp, hok, herr⟩ := sendBuffers_trace sender s bufs
  refine ⟨?_, hp, hok, herr⟩
  unfold buildAndSend
  rw [hbufs]
  rfl

/-- C8 witness: the `"Sample"` registry entry with a counting sender
that accepts every chunk. -/
theorem C8_witness :
    let sender : Nat → List Nat → Nat × Except Unit Unit := fun s _ => (s + 1, Except.ok ())
    let bufs : List (List Nat) := [[35, 35, 0, 5, 0, 0, 0, 3, 1, 2, 3] ++ List.replicate 52 0]
    buildBuffers 10 sampleMessages "Sample" (JSValue.obj []) = .ok bufs ∧
    (buildAndSend 10 sampleMessages sender 0 "Sample" (JSValue.obj []) =
        .ok (sendBuffers sender 0 bufs) ∧
      (sendBuffers sender 0 bufs).2.1 <+: bufs ∧
      ((sendBuffers sender 0 bufs).2.2 = .ok () → (sendBuffers sender 0 bufs).2.1 = bufs) ∧
      (∀ e, (sendBuffers sender 0 bufs).2.2 = .error e →
        ∃ k, k < bufs.length ∧ (sendBuffers sender 0 bufs).2.1 = bufs.take (k + 1))) :=
  ⟨rfl, C8_buildAndSend_sequential 10 sampleMessages
    (fun s _ => (s + 1, Except.ok ())) 0 "Sample" (JSValue.obj [])
    [[35, 35, 0, 5, 0, 0, 0, 3, 1, 2, 3] ++ List.replicate 52 0] rfl⟩

/-! ## Wire-type resolution (C6) -/

/-- C6 counterexample: with the `"Orphan"` registry entry — a resolvable
builder that has no numeric `(wire_type)` option and no
`MessageType_Orphan` table entry — `BuiltMessage` construction does NOT
fail with any error: it succeeds and silently leaves the type tag
undefined (`none`), contradicting the claim that the call fails
immediately with a distinct configuration error. -/
theorem C6_counterexample :
    builtMessage 10 orphanMessages "Orphan" (JSValue.obj []) =
      .ok ⟨orphanBuilder, JSValue.obj [], none⟩ := rfl

/-- C6 amended: when the resolved schema declares neither a numeric
`(wire_type)` option nor a `MessageType_<name>` table entry, the
`BuiltMessage` constructor succeeds with the type tag left undefined
(never defaulted to a number); a failure surfaces only later, when
`buildOne`/`buildBuffers` write the undefined type tag and the byte
buffer's `writeUint16` assert raises a generic illegal-value type error
— not a distinct configuration error, and not at construction time. -/
theorem C6_type_left_undefined (fuel : Nat) (messages : Messages) (name : String)
    (data cleaned : JSValue) (b : MessageBuilder)
    (hb : messages.messagesByName name = some b)
    (hw : b.wireTypeOption = none)
    (hm : messages.messageTypes ("MessageType_" ++ name) = none)
    (hc : cleanupInput fuel data = some cleaned) :
    builtMessage fuel messages name data = .ok ⟨b, cleaned, none⟩ ∧
    buildOne fuel messages name data = .error .illegalValue ∧
    buildBuffers fuel messages name data = .error .illegalValue := by
  have h1 : builtMessage fuel messages name data = .ok ⟨b, cleaned, none⟩ := by
    simp only [builtMessage, hb, hc, hw, hm]
  refine ⟨h1, ?_, ?_⟩
  · unfold buildOne
    rw [h1, exceptBind_ok]
    rfl
  · unfold buildBuffers
    rw [h1, exceptBind_ok]
    rfl

/-- C6 witness: concrete instantiation at the `"Orphan"` registry. -/
theorem C6_witness :
    (orphanMessages.messagesByName "Orphan" = some orphanBuilder ∧
     orphanBuilder.wireTypeOption = none ∧
     orphanMessages.messageTypes ("MessageType_" ++ "Orphan") = none ∧
     cleanupInput 10 (JSValue.obj []) = some (JSValue.obj [])) ∧
    (builtMessage 10 orphanMessages "Orphan" (JSValue.obj []) =
        .ok ⟨orphanBuilder, JSValue.obj [], none⟩ ∧
      buildOne 10 orphanMessages "Orphan" (JSValue.obj []) = .error .illegalValue ∧
      buildBuffers 10 orphanMessages "Orphan" (JSValue.obj []) = .error .illegalValue) :=
  ⟨⟨rfl, rfl, rfl, rfl⟩,
   C6_type_left_undefined 10 orphanMessages "Orphan" (JSValue.obj []) (JSValue.obj [])
     orphanBuilder rfl rfl rfl rfl⟩

/-! ## Cleanup effect (towards C10) -/

theorem optionBind_eq_some {α β : Type} (x : Option α) (f : α → Option β) (b : β) :
    ((x >>= f) = some b) ↔ ∃ a, x = some a ∧ f a = some b := by
  rw [show (x >>= f) = x.bind f from rfl, Option.bind_eq_some]

/-- A successful `cleanupInput` run never yields `null` or `undefined`
(those inputs throw instead). -/
theorem cleanupInput_shape (fuel : Nat) (v w : JSValue) (h : cleanupInput fuel v = some w) :
    w ≠ JSValue.vnull ∧ w ≠ JSValue.vundef := by
  match fuel, v with
  | 0, v => simp [cleanupInput] at h
  | f + 1, .vnull => simp [cleanupInput] at h
  | f + 1, .vundef => simp [cleanupInput] at h
  | f + 1, .prim t =>
    simp [cleanupInput] at h
    subst h
    exact ⟨by simp, by simp⟩
  | f + 1, .obj fs =>
    simp only [cleanupInput] at h
    rw [Option.map_eq_some'] at h
    obtain ⟨ws, _, rfl⟩ := h
    exact ⟨by simp, by simp⟩
  | f + 1, .arr es =>
    simp only [cleanupInput] at h
    rw [Option.map_eq_some'] at h
    obtain ⟨es1, _, rfl⟩ := h
    exact ⟨by simp, by simp⟩

/-- Joint invariant of the cleanup walk: every object surviving the walk
has lost its `$$hashKey` field and all `null`/`undefined`-valued fields,
recursively through nested objects and through objects inside arrays. -/
theorem cleanup_bundle : ∀ fuel : Nat,
    (∀ v w, cleanupInput fuel v = some w → NoJunk w) ∧
    (∀ v w, v ≠ JSValue.vnull → v ≠ JSValue.vundef → cleanupValue fuel v = some w →
      NoJunk w ∧ w ≠ JSValue.vnull ∧ w ≠ JSValue.vundef) ∧
    (∀ fs ws, cleanupFields fuel fs = some ws →
      ∀ k v, (k, v) ∈ ws →
        (∃ v0, (k, v0) ∈ fs) ∧ v ≠ JSValue.vnull ∧ v ≠ JSValue.vundef ∧ NoJunk v) ∧
    (∀ es es1, cleanupArrElems fuel es = some es1 → ∀ e ∈ es1, NoJunk e) := by
  intro fuel
  induction fuel with
  | zero =>
    refine ⟨fun v w h => ?_, fun v w _ _ h => ?_, fun fs ws h => ?_, fun es es1 h => ?_⟩ <;>
      simp [cleanupInput, cleanupValue, cleanupFields, cleanupArrElems] at h
  | succ f ih =>
    obtain ⟨ih1, ih2, ih3, ih4⟩ := ih
    have part2 : ∀ v w, v ≠ JSValue.vnull → v ≠ JSValue.vundef →
        cleanupValue (f + 1) v = some w →
        NoJunk w ∧ w ≠ JSValue.vnull ∧ w ≠ JSValue.vundef := by
      intro v w hn hnu h
      match v with
      | .vnull => exact absurd rfl hn
      | .vundef => exact absurd rfl hnu
      | .prim t =>
        simp [cleanupValue] at h
        subst h
        exact ⟨by rw [NoJunk]; trivial, by simp, by simp⟩
      | .obj fs =>
        simp only [cleanupValue] at h
        exact ⟨ih1 _ _ h, cleanupInput_shape f _ _ h⟩
      | .arr es =>
        simp only [cleanupValue] at h
        rw [optionBind_eq_some] at h
        obtain ⟨es1, _, hci⟩ := h
        exact ⟨ih1 _ _ hci, cleanupInput_shape f _ _ hci⟩
    have part3 : ∀ fs ws, cleanupFields (f + 1) fs = some ws →
        ∀ k v, (k, v) ∈ ws →
          (∃ v0, (k, v0) ∈ fs) ∧ v ≠ JSValue.vnull ∧ v ≠ JSValue.vundef ∧ NoJunk v := by
      intro fs ws h k v hkv
      match fs with
      | [] =>
        simp [cleanupFields] at h
        subst h
        simp at hkv
      | (k0, v0) :: rest =>
        match v0 with
        | .vnull =>
          simp only [cleanupFields] at h
          obtain ⟨⟨vr, hvr⟩, hnn, hnu, hnj⟩ := ih3 rest ws h k v hkv
          exact ⟨⟨vr, List.mem_cons_of_mem _ hvr⟩, hnn, hnu, hnj⟩
        | .vundef =>
          simp only [cleanupFields] at h
          obtain ⟨⟨vr, hvr⟩, hnn, hnu, hnj⟩ := ih3 rest ws h k v hkv
          exact ⟨⟨vr, List.mem_cons_of_mem _ hvr⟩, hnn, hnu, hnj⟩
        | .prim t =>
          simp only [cleanupFields] at h
          rw [optionBind_eq_some] at h
          obtain ⟨v1, hv1, h⟩ := h
          rw [optionBind_eq_some] at h
          obtain ⟨rest1, hrest1, h⟩ := h
          rw [Option.some.injEq] at h
          subst h
          rcases List.mem_cons.mp hkv with heq | hmem
          · obtain ⟨rfl, rfl⟩ := Prod.mk.injEq .. ▸ heq
            obtain ⟨hj, hn1, hn2⟩ := ih2 _ _ (by simp) (by simp) hv1
            exact ⟨⟨.prim t, List.mem_cons_self ..⟩, hn1, hn2, hj⟩
          · obtain ⟨⟨vr, hvr⟩, hnn, hnu, hnj⟩ := ih3 rest rest1 hrest1 k v hmem
            exact ⟨⟨vr, List.mem_cons_of_mem _ hvr⟩, hnn, hnu, hnj⟩
        | .arr es0 =>
          simp only [cleanupFields] at h
          rw [optionBind_eq_some] at h
          obtain ⟨v1, hv1, h⟩ := h
          rw [optionBind_eq_some] at h
          obtain ⟨rest1, hrest1, h⟩ := h
          rw [Option.some.injEq] at h
          subst h
          rcases List.mem_cons.mp hkv with heq | hmem
          · obtain ⟨rfl, rfl⟩ := Prod.mk.injEq .. ▸ heq
            obtain ⟨hj, hn1, hn2⟩ := ih2 _ _ (by simp) (by simp) hv1
            exact ⟨⟨.arr es0, List.mem_cons_self ..⟩, hn1, hn2, hj⟩
          · obtain ⟨⟨vr, hvr⟩, hnn, hnu, hnj⟩ := ih3 rest rest1 hrest1 k v hmem
            exact ⟨⟨vr, List.mem_cons_of_mem _ hvr⟩, hnn, hnu, hnj⟩
        | .obj fs0 =>
          simp only [cleanupFields] at h
          rw [optionBind_eq_some] at h
          obtain ⟨v1, hv1, h⟩ := h
          rw [optionBind_eq_some] at h
          obtain ⟨rest1, hrest1, h⟩ := h
          rw [Option.some.injEq] at h
          subst h
          rcases List.mem_cons.mp hkv with heq | hmem
          · obtain ⟨rfl, rfl⟩ := Prod.mk.injEq .. ▸ heq
            obtain ⟨hj, hn1, hn2⟩ := ih2 _ _ (by simp) (by simp) hv1
            exact ⟨⟨.obj fs0, List.mem_cons_self ..⟩, hn1, hn2, hj⟩
          · obtain ⟨⟨vr, hvr⟩, hnn, hnu, hnj⟩ := ih3 rest rest1 hrest1 k v hmem
            exact ⟨⟨vr, List.mem_cons_of_mem _ hvr⟩, hnn, hnu, hnj⟩
    have part4 : ∀ es es1, cleanupArrElems (f + 1) es = some es1 →
        ∀ e ∈ es1, NoJunk e := by
      intro es es1 h e he
      match es with
      | [] =>
        simp [cleanupArrElems] at h
        subst h
        simp at he
      | e0 :: rest =>
        match e0 with
        | .vnull =>
          simp only [cleanupArrElems] at h
          rw [optionBind_eq_some] at h
          obtain ⟨e1, he1, h⟩ := h
          rw [Option.some.injEq] at he1
          subst he1
          rw [optionBind_eq_some] at h
          obtain ⟨rest1, hrest1, h⟩ := h
          rw [Option.some.injEq] at h
          subst h
          rcases List.mem_cons.mp he with rfl | hmem
          · rw [NoJunk]; trivial
          · exact ih4 rest rest1 hrest1 e hmem
        | .vundef =>
          simp only [cleanupArrElems] at h
          rw [optionBind_eq_some] at h
          obtain ⟨e1, he1, h⟩ := h
          rw [Option.some.injEq] at he1
          subst he1
          rw [optionBind_eq_some] at h
          obtain ⟨rest1, hrest1, h⟩ := h
          rw [Option.some.injEq] at h
          subst h
          rcases List.mem_cons.mp he with rfl | hmem
          · rw [NoJunk]; trivial
          · exact ih4 rest rest1 hrest1 e hmem
        | .prim t =>
          simp only [cleanupArrElems] at h
          rw [optionBind_eq_some] at h
          obtain ⟨e1, he1, h⟩ := h
          rw [optionBind_eq_some] at h
          obtain ⟨rest1, hrest1, h⟩ := h
          rw [Option.some.injEq] at h
          subst h
          rcases List.mem_cons.mp he with rfl | hmem
          · exact (ih2 _ _ (by simp) (by simp) he1).1
          · exact ih4 rest rest1 hrest1 e hmem
        | .arr es0 =>
          simp only [cleanupArrElems] at h
          rw [optionBind_eq_some] at h
          obtain ⟨e1, he1, h⟩ := h
          rw [optionBind_eq_some] at h
          obtain ⟨rest1, hrest1, h⟩ := h
          rw [Option.some.injEq] at h
          subst h
          rcases List.mem_cons.mp he with rfl | hmem
          · exact (ih2 _ _ (by simp) (by simp) he1).1
          · exact ih4 rest rest1 hrest1 e hmem
        | .obj fs0 =>
          simp only [cleanupArrElems] at h
          rw [optionBind_eq_some] at h
          obtain ⟨e1, he1, h⟩ := h
          rw [optionBind_eq_some] at h
          obtain ⟨rest1, hrest1, h⟩ := h
          rw [Option.some.injEq] at h
          subst h
          rcases List.mem_cons.mp he with rfl | hmem
          · exact (ih2 _ _ (by simp) (by simp) he1).1
          · exact ih4 rest rest1 hrest1 e hmem
    have part1 : ∀ v w, cleanupInput (f + 1) v = some w → NoJunk w := by
      intro v w h
      match v with
      | .vnull => simp [cleanupInput] at h
      | .vundef => simp [cleanupInput] at h
      | .prim t =>
        simp [cleanupInput] at h
        subst h
        rw [NoJunk]
        trivial
      | .obj fs =>
        simp only [cleanupInput] at h
        rw [Option.map_eq_some'] at h
        obtain ⟨ws, hws, rfl⟩ := h
        rw [NoJunk]
        intro k v hkv
        obtain ⟨⟨v0, hv0⟩, hnn, hnu, hnj⟩ := ih3 _ _ hws k v hkv
        refine ⟨?_, hnn, hnu, hnj⟩
        have hmem := List.mem_filter.mp hv0
        simpa using hmem.2
      | .arr es =>
        simp only [cleanupInput] at h
        rw [Option.map_eq_some'] at h
        obtain ⟨es1, hes, rfl⟩ := h
        rw [NoJunk]
        exact ih4 _ _ hes
    exact ⟨part1, part2, part3, part4⟩

theorem builtMessage_ok_cleanup (fuel : Nat) (messages : Messages) (name : String)
    (data : JSValue) (m : BuiltMessage)
    (h : builtMessage fuel messages name data = .ok m) :
    cleanupInput fuel data = some m.data ∧ NoJunk m.data := by
  rcases hname : messages.messagesByName name with _ | b
  · simp [builtMessage, hname] at h
  · rcases hcl : cleanupInput fuel data with _ | cleaned
    · simp [builtMessage, hname, hcl] at h
    · simp only [builtMessage, hname, hcl] at h
      rw [Except.ok.injEq] at h
      subst h
      exact ⟨rfl, (cleanup_bundle fuel).1 _ _ hcl⟩

theorem buildBuffers_ok_cleanup (fuel : Nat) (messages : Messages) (name : String)
    (data : JSValue) (bufs : List (List Nat))
    (h : buildBuffers fuel messages name data = .ok bufs) :
    ∃ cleaned, cleanupInput fuel data = some cleaned ∧ NoJunk cleaned := by
  rcases hbm : builtMessage fuel messages name data with e | m
  · rw [show buildBuffers fuel messages name data =
      (builtMessage fuel messages name data >>= fun m => _) from rfl, hbm,
      exceptBind_error] at h
    cases h
  · obtain ⟨hcl, hnj⟩ := builtMessage_ok_cleanup fuel messages name data m hbm
    exact ⟨m.data, hcl, hnj⟩

theorem buildOne_ok_cleanup (fuel : Nat) (messages : Messages) (name : String)
    (data : JSValue) (out : List Nat)
    (h : buildOne fuel messages name data = .ok out) :
    ∃ cleaned, cleanupInput fuel data = some cleaned ∧ NoJunk cleaned := by
  rcases hbm : builtMessage fuel messages name data with e | m
  · rw [show buildOne fuel messages name data =
      (builtMessage fuel messages name data >>= fun m => _) from rfl, hbm,
      exceptBind_error] at h
    cases h
  · obtain ⟨hcl, hnj⟩ := builtMessage_ok_cleanup fuel messages name data m hbm
    exact ⟨m.data, hcl, hnj⟩

theorem buildAndSend_ok_cleanup {S E : Type} (fuel : Nat) (messages : Messages)
    (sender : S → List Nat → S × Except E Unit) (s : S) (name : String) (data : JSValue)
    (out : S × List (List Nat) × Except E Unit)
    (h : buildAndSend fuel messages sender s name data = .ok out) :
    ∃ cleaned, cleanupInput fuel data = some cleaned ∧ NoJunk cleaned := by
  rcases hbb : buildBuffers fuel messages name data with e | bufs
  · unfold buildAndSend at h
    rw [hbb] at h
    cases h
  · exact buildBuffers_ok_cleanup fuel messages name data bufs hbb

/-- C10: every successful encode call (`buildBuffers`, `buildOne`,
`buildAndSend`) first mutates its `data` argument in place via
`cleanupInput` — the model records the post-call state of the caller's
object as the `data` field of the constructed message — and that state
has the `$$hashKey` property and every `null`/`undefined`-valued
property deleted, recursively through nested objects and through objects
inside arrays; on a concrete input with such properties the post-call
state differs from the original, i.e. the input object is not left
unchanged. -/
theorem C10_build_mutates_data :
    (∀ fuel (messages : Messages) (name : String) (data : JSValue) (m : BuiltMessage),
        builtMessage fuel messages name data = .ok m →
        cleanupInput fuel data = some m.data ∧ NoJunk m.data) ∧
    (∀ fuel (messages : Messages) (name : String) (data : JSValue) (bufs : List (List Nat)),
        buildBuffers fuel messages name data = .ok bufs →
        ∃ cleaned, cleanupInput fuel data = some cleaned ∧ NoJunk cleaned) ∧
    (∀ fuel (messages : Messages) (name : String) (data : JSValue) (out : List Nat),
        buildOne fuel messages name data = .ok out →
        ∃ cleaned, cleanupInput fuel data = some cleaned ∧ NoJunk cleaned) ∧
    (∀ (S E : Type) fuel (messages : Messages)
        (sender : S → List Nat → S × Except E Unit) (s : S) (name : String) (data : JSValue)
        (out : S × List (List Nat) × Except E Unit),
        buildAndSend fuel messages sender s name data = .ok out →
        ∃ cleaned, cleanupInput fuel data = some cleaned ∧ NoJunk cleaned) ∧
    (cleanupInput 10 (JSValue.obj [("$$hashKey", .prim 1), ("a", .vnull),
        ("b", .obj [("c", .vundef), ("d", .prim 2)])]) =
      some (JSValue.obj [("b", JSValue.obj [("d", JSValue.prim 2)])]) ∧
     JSValue.obj [("b", JSValue.obj [("d", JSValue.prim 2)])] ≠
       JSValue.obj [("$$hashKey", .prim 1), ("a", .vnull),
         ("b", .obj [("c", .vundef), ("d", .prim 2)])]) :=
  ⟨builtMessage_ok_cleanup,
   buildBuffers_ok_cleanup,
   buildOne_ok_cleanup,
   fun S E fuel messages sender s name data out h =>
     buildAndSend_ok_cleanup fuel messages sender s name data out h,
   rfl,
   by simp⟩

end TrezorLink
